import Mathlib

/-!
Verification of the DocuCraft collage layout engine (`mergeImages` in the
image-utilities module) against its natural-language specification.

The engine is shallowly embedded: decoded images are pairs of natural pixel
dimensions, JS numbers are rationals, `Math.floor` is `Int.floor`, and the
sequence of `ctx.drawImage` calls is recorded as a list of placements.
-/

namespace DocuCraft

/-- Decoded raster image: `loadImageFromFile` yields an element whose
`width`/`height` are its natural pixel dimensions.  A successfully decoded
image has positive dimensions; theorems that depend on that state it as a
hypothesis. -/
structure Img where
  width : ℕ
  height : ℕ
  deriving DecidableEq, Inhabited

/-- The three collage layout modes accepted by `mergeImages`. -/
inductive Layout where
  | horizontal
  | vertical
  | grid
  deriving DecidableEq

/-- The options object of `mergeImages`; every field is optional. -/
structure MergeOptions where
  layout : Option Layout := none
  spacing : Option ℚ := none
  backgroundColor : Option String := none
  maxWidth : Option ℚ := none

/-- JS falsy defaulting `o || d` on numbers: `0` is falsy, so an explicit
`0` is replaced by the default, exactly like an omitted option. -/
def numOr (o : Option ℚ) (d : ℚ) : ℚ :=
  match o with
  | none => d
  | some v => if v = 0 then d else v

/-- JS falsy defaulting `o || d` on strings: the empty string is falsy. -/
def strOr (o : Option String) (d : String) : String :=
  match o with
  | none => d
  | some s => if s = "" then d else s

/-- Embeds `Math.max(...l)` for a nonempty list of naturals. -/
def maxNat (l : List ℕ) : ℕ := l.foldr max 0

/-- Embeds `Math.ceil(Math.sqrt n)` for a natural `n`. -/
def ceilSqrt (n : ℕ) : ℕ :=
  if Nat.sqrt n * Nat.sqrt n = n then Nat.sqrt n else Nat.sqrt n + 1

/-- Embeds `Math.ceil(a / b)` for naturals with `b > 0`. -/
def ceilDivNat (a b : ℕ) : ℕ := (a + b - 1) / b

/-- The value `canvasWidth` computed by the layout branch of `mergeImages`,
before `Math.floor` is applied when it is assigned to `canvas.width`. -/
def canvasWidthRaw (layout : Layout) (spacing maxWidth : ℚ) (images : List Img) : ℚ :=
  match layout with
  | .horizontal =>
    let totalWidth : ℚ := (images.map Img.width).sum
    (totalWidth + spacing * ((images.length : ℚ) - 1)) * min 1 (maxWidth / totalWidth)
  | .vertical =>
    let maxImgWidth : ℚ := maxNat (images.map Img.width)
    maxImgWidth * min 1 (maxWidth / maxImgWidth)
  | .grid =>
    let cols : ℕ := ceilSqrt images.length
    let maxImgWidth : ℚ := maxNat (images.map Img.width)
    (maxImgWidth * cols + spacing * ((cols : ℚ) - 1)) *
      min 1 (maxWidth / (maxImgWidth * cols))

/-- The value `canvasHeight` computed by the layout branch of `mergeImages`,
before `Math.floor` is applied when it is assigned to `canvas.height`. -/
def canvasHeightRaw (layout : Layout) (spacing maxWidth : ℚ) (images : List Img) : ℚ :=
  match layout with
  | .horizontal =>
    let totalWidth : ℚ := (images.map Img.width).sum
    let maxHeight : ℚ := maxNat (images.map Img.height)
    maxHeight * min 1 (maxWidth / totalWidth)
  | .vertical =>
    let maxImgWidth : ℚ := maxNat (images.map Img.width)
    let totalHeight : ℚ := (images.map Img.height).sum
    (totalHeight + spacing * ((images.length : ℚ) - 1)) * min 1 (maxWidth / maxImgWidth)
  | .grid =>
    let cols : ℕ := ceilSqrt images.length
    let rows : ℕ := ceilDivNat images.length cols
    let maxImgWidth : ℚ := maxNat (images.map Img.width)
    let maxImgHeight : ℚ := maxNat (images.map Img.height)
    (maxImgHeight * rows + spacing * ((rows : ℚ) - 1)) *
      min 1 (maxWidth / (maxImgWidth * cols))

/-- The output canvas: `canvas.width` and `canvas.height` receive
`Math.floor` of the computed dimensions; the background fill color is
recorded as drawn by `fillRect`. -/
structure Canvas where
  width : ℤ
  height : ℤ
  background : String
  deriving DecidableEq

/-- One `ctx.drawImage(img, x, y, w, h)` call recorded symbolically. -/
structure Placement where
  x : ℚ
  y : ℚ
  scaledWidth : ℚ
  scaledHeight : ℚ
  deriving DecidableEq, Inhabited

/-- Non-overlap of two drawn rectangles: they are separated along the
x-axis or along the y-axis (touching edges allowed).  This formalises the
specification's notion that two placements do not overlap. -/
def rectDisjoint (p q : Placement) : Prop :=
  p.x + p.scaledWidth ≤ q.x ∨ q.x + q.scaledWidth ≤ p.x ∨
  p.y + p.scaledHeight ≤ q.y ∨ q.y + q.scaledHeight ≤ p.y

/-- The drawing loop of the `horizontal` branch: each image is scaled by the
draw-time scale, vertically centered, and the cursor `x` advances by
`scaledWidth + spacing`. -/
def horizLoop (spacing scale canvasH : ℚ) (x : ℚ) : List Img → List Placement
  | [] => []
  | img :: rest =>
    ⟨x, (canvasH - (img.height : ℚ) * scale) / 2,
      (img.width : ℚ) * scale, (img.height : ℚ) * scale⟩ ::
      horizLoop spacing scale canvasH (x + (img.width : ℚ) * scale + spacing) rest

/-- The drawing loop of the `vertical` branch: each image is scaled by the
draw-time scale, horizontally centered, and the cursor `y` advances by
`scaledHeight + spacing`. -/
def vertLoop (spacing scale canvasW : ℚ) (y : ℚ) : List Img → List Placement
  | [] => []
  | img :: rest =>
    ⟨(canvasW - (img.width : ℚ) * scale) / 2, y,
      (img.width : ℚ) * scale, (img.height : ℚ) * scale⟩ ::
      vertLoop spacing scale canvasW (y + (img.height : ℚ) * scale + spacing) rest

/-- The drawing loop of the `grid` branch: image `i` goes to column
`i % cols` and row `i / cols`, top-left anchored in its cell. -/
def gridLoop (cols : ℕ) (maxW maxH spacing scale : ℚ) (i : ℕ) :
    List Img → List Placement
  | [] => []
  | img :: rest =>
    ⟨((i % cols : ℕ) : ℚ) * (maxW * scale + spacing),
      ((i / cols : ℕ) : ℚ) * (maxH * scale + spacing),
      (img.width : ℚ) * scale, (img.height : ℚ) * scale⟩ ::
      gridLoop cols maxW maxH spacing scale (i + 1) rest

/-- The draw phase of `mergeImages`: recomputes a draw-time scale from the
(floored) canvas dimensions, exactly as the source does, and records every
`drawImage` call. -/
def drawPlacements (layout : Layout) (spacing : ℚ) (canvas : Canvas)
    (images : List Img) : List Placement :=
  match layout with
  | .horizontal =>
    horizLoop spacing ((canvas.height : ℚ) / (maxNat (images.map Img.height) : ℚ))
      (canvas.height : ℚ) 0 images
  | .vertical =>
    vertLoop spacing ((canvas.width : ℚ) / (maxNat (images.map Img.width) : ℚ))
      (canvas.width : ℚ) 0 images
  | .grid =>
    let cols : ℕ := ceilSqrt images.length
    let maxImgWidth : ℚ := maxNat (images.map Img.width)
    let maxImgHeight : ℚ := maxNat (images.map Img.height)
    gridLoop cols maxImgWidth maxImgHeight spacing
      ((canvas.width : ℚ) / (maxImgWidth * cols + spacing * ((cols : ℚ) - 1)))
      0 images

/-- Outcome of `mergeImages`: either a tagged failure carrying the error
string, or the composed canvas together with the recorded placements. -/
inductive MergeResult where
  | failure (error : String)
  | success (canvas : Canvas) (placements : List Placement)
  deriving DecidableEq

/-- Shallow embedding of `mergeImages` from the image-utilities module: the
two insufficient-input guards, the falsy option defaulting, the per-layout
canvas-size computation (floored into the canvas), and the drawing pass. -/
def mergeImages (imageFiles : List Img) (options : MergeOptions) : MergeResult :=
  if imageFiles.length = 0 then
    .failure "No images selected"
  else if imageFiles.length = 1 then
    .failure "Please select at least 2 images to merge"
  else
    let layout := options.layout.getD .vertical
    let spacing := numOr options.spacing 10
    let backgroundColor := strOr options.backgroundColor "#ffffff"
    let maxWidth := numOr options.maxWidth 1200
    let canvas : Canvas :=
      ⟨(canvasWidthRaw layout spacing maxWidth imageFiles).floor,
       (canvasHeightRaw layout spacing maxWidth imageFiles).floor,
       backgroundColor⟩
    .success canvas (drawPlacements layout spacing canvas imageFiles)

/-! ### Generic lemmas -/

/-- Executable `Rat.floor` agrees with `Int.floor` on `ℚ`. -/
lemma ratFloor_eq_intFloor (q : ℚ) : q.floor = ⌊q⌋ :=
  (Rat.floor_def' q).trans Rat.floor_def.symm

lemma horizLoop_length (sp sc ch : ℚ) (imgs : List Img) (x : ℚ) :
    (horizLoop sp sc ch x imgs).length = imgs.length := by
  induction imgs generalizing x with
  | nil => rfl
  | cons img rest ih => simp [horizLoop, ih]

lemma vertLoop_length (sp sc cw : ℚ) (imgs : List Img) (y : ℚ) :
    (vertLoop sp sc cw y imgs).length = imgs.length := by
  induction imgs generalizing y with
  | nil => rfl
  | cons img rest ih => simp [vertLoop, ih]

lemma gridLoop_length (cols : ℕ) (mW mH sp sc : ℚ) (imgs : List Img) (k : ℕ) :
    (gridLoop cols mW mH sp sc k imgs).length = imgs.length := by
  induction imgs generalizing k with
  | nil => rfl
  | cons img rest ih => simp [gridLoop, ih]

/-- Per-image fields of the horizontal drawing loop: scaled size and
vertical centering. -/
lemma horizLoop_getD_fields (sp sc ch : ℚ) (imgs : List Img) :
    ∀ (x : ℚ) (i : ℕ), i < imgs.length →
      (horizLoop sp sc ch x imgs).getD i default =
        ⟨((horizLoop sp sc ch x imgs).getD i default).x,
         (ch - ((imgs.getD i default).height : ℚ) * sc) / 2,
         ((imgs.getD i default).width : ℚ) * sc,
         ((imgs.getD i default).height : ℚ) * sc⟩ := by
  induction imgs with
  | nil => intro x i h; simp at h
  | cons img rest ih =>
    intro x i h
    cases i with
    | zero => simp [horizLoop]
    | succ n =>
      simp only [horizLoop, List.getD_cons_succ]
      exact ih _ n (by simpa using h)

/-- The first placement of the horizontal loop starts at the cursor. -/
lemma horizLoop_getD_zero_x (sp sc ch x : ℚ) (img : Img) (rest : List Img) :
    ((horizLoop sp sc ch x (img :: rest)).getD 0 default).x = x := rfl

/-- The horizontal cursor advances by `scaledWidth + spacing`. -/
lemma horizLoop_getD_succ_x (sp sc ch : ℚ) (imgs : List Img) :
    ∀ (x : ℚ) (i : ℕ), i + 1 < imgs.length →
      ((horizLoop sp sc ch x imgs).getD (i + 1) default).x =
        ((horizLoop sp sc ch x imgs).getD i default).x +
          ((horizLoop sp sc ch x imgs).getD i default).scaledWidth + sp := by
  induction imgs with
  | nil => intro x i h; simp at h
  | cons img rest ih =>
    intro x i h
    cases i with
    | zero =>
      match rest, h with
      | img2 :: rest2, _ =>
        simp [horizLoop]
    | succ n =>
      simp only [horizLoop, List.getD_cons_succ]
      exact ih _ n (by simpa using h)

/-- Per-image fields of the vertical drawing loop: scaled size and
horizontal centering. -/
lemma vertLoop_getD_fields (sp sc cw : ℚ) (imgs : List Img) :
    ∀ (y : ℚ) (i : ℕ), i < imgs.length →
      (vertLoop sp sc cw y imgs).getD i default =
        ⟨(cw - ((imgs.getD i default).width : ℚ) * sc) / 2,
         ((vertLoop sp sc cw y imgs).getD i default).y,
         ((imgs.getD i default).width : ℚ) * sc,
         ((imgs.getD i default).height : ℚ) * sc⟩ := by
  induction imgs with
  | nil => intro y i h; simp at h
  | cons img rest ih =>
    intro y i h
    cases i with
    | zero => simp [vertLoop]
    | succ n =>
      simp only [vertLoop, List.getD_cons_succ]
      exact ih _ n (by simpa using h)

/-- The first placement of the vertical loop starts at the cursor. -/
lemma vertLoop_getD_zero_y (sp sc cw y : ℚ) (img : Img) (rest : List Img) :
    ((vertLoop sp sc cw y (img :: rest)).getD 0 default).y = y := rfl

/-- The vertical cursor advances by `scaledHeight + spacing`. -/
lemma vertLoop_getD_succ_y (sp sc cw : ℚ) (imgs : List Img) :
    ∀ (y : ℚ) (i : ℕ), i + 1 < imgs.length →
      ((vertLoop sp sc cw y imgs).getD (i + 1) default).y =
        ((vertLoop sp sc cw y imgs).getD i default).y +
          ((vertLoop sp sc cw y imgs).getD i default).scaledHeight + sp := by
  induction imgs with
  | nil => intro y i h; simp at h
  | cons img rest ih =>
    intro y i h
    cases i with
    | zero =>
      match rest, h with
      | img2 :: rest2, _ =>
        simp [vertLoop]
    | succ n =>
      simp only [vertLoop, List.getD_cons_succ]
      exact ih _ n (by simpa using h)

/-- Closed form of the grid drawing loop: image `i` (at running index
`k + i`) sits at column `(k+i) % cols` and row `(k+i) / cols`. -/
lemma gridLoop_getD (cols : ℕ) (mW mH sp sc : ℚ) (imgs : List Img) :
    ∀ (k i : ℕ), i < imgs.length →
      (gridLoop cols mW mH sp sc k imgs).getD i default =
        ⟨(((k + i) % cols : ℕ) : ℚ) * (mW * sc + sp),
         (((k + i) / cols : ℕ) : ℚ) * (mH * sc + sp),
         ((imgs.getD i default).width : ℚ) * sc,
         ((imgs.getD i default).height : ℚ) * sc⟩ := by
  induction imgs with
  | nil => intro k i h; simp at h
  | cons img rest ih =>
    intro k i h
    cases i with
    | zero => simp [gridLoop]
    | succ n =>
      simp only [gridLoop, List.getD_cons_succ]
      rw [ih (k + 1) n (by simpa using h)]
      have : k + 1 + n = k + (n + 1) := by omega
      rw [this]

/-- Every member of a list of naturals is bounded by `maxNat`. -/
lemma le_maxNat {l : List ℕ} {a : ℕ} (h : a ∈ l) : a ≤ maxNat l := by
  induction l with
  | nil => cases h
  | cons b t ih =>
    simp only [maxNat, List.foldr_cons]
    rcases List.mem_cons.mp h with rfl | h2
    · exact le_max_left _ _
    · exact le_trans (ih h2) (le_max_right _ _)

/-- Total advance of the horizontal cursor: the sum of
`scaledWidth + spacing` over all placements. -/
lemma horizLoop_sum_advance (sp sc ch : ℚ) (imgs : List Img) :
    ∀ x, ((horizLoop sp sc ch x imgs).map (fun p => p.scaledWidth + sp)).sum =
      sc * ((imgs.map Img.width).sum : ℚ) + (imgs.length : ℚ) * sp := by
  induction imgs with
  | nil => intro x; simp [horizLoop]
  | cons img rest ih =>
    intro x
    simp only [horizLoop, List.map_cons, List.sum_cons, ih, List.length_cons]
    push_cast
    ring

/-- Total advance of the vertical cursor: the sum of
`scaledHeight + spacing` over all placements. -/
lemma vertLoop_sum_advance (sp sc cw : ℚ) (imgs : List Img) :
    ∀ y, ((vertLoop sp sc cw y imgs).map (fun p => p.scaledHeight + sp)).sum =
      sc * ((imgs.map Img.height).sum : ℚ) + (imgs.length : ℚ) * sp := by
  induction imgs with
  | nil => intro y; simp [vertLoop]
  | cons img rest ih =>
    intro y
    simp only [vertLoop, List.map_cons, List.sum_cons, ih, List.length_cons]
    push_cast
    ring

/-- The clamped scale factor of the engine is positive when both the content
dimension and the width budget are. -/
lemma mul_min_pos {A mw : ℚ} (hA : 0 < A) (hmw : 0 < mw) : 0 < min 1 (mw / A) :=
  lt_min zero_lt_one (div_pos hmw hA)

/-- Scaling content `A` plus spacing overhead `B` by
`min 1 (budget / A)` lands within `budget + B`. -/
lemma mul_min_le_budget {A B mw : ℚ} (hA : 0 < A) (hB : 0 ≤ B) :
    (A + B) * min 1 (mw / A) ≤ mw + B := by
  have hs1 : min 1 (mw / A) ≤ 1 := min_le_left _ _
  have hs2 : min 1 (mw / A) ≤ mw / A := min_le_right _ _
  have h1 : A * min 1 (mw / A) ≤ mw := by
    calc A * min 1 (mw / A) ≤ A * (mw / A) :=
          mul_le_mul_of_nonneg_left hs2 (le_of_lt hA)
      _ = mw := by field_simp
  have h2 : B * min 1 (mw / A) ≤ B := by
    calc B * min 1 (mw / A) ≤ B * 1 := mul_le_mul_of_nonneg_left hs1 hB
      _ = B := mul_one B
  calc (A + B) * min 1 (mw / A) = A * min 1 (mw / A) + B * min 1 (mw / A) := by ring
    _ ≤ mw + B := add_le_add h1 h2

/-- The column count `ceil (sqrt n)` is at least 1 once there is an image. -/
lemma one_le_ceilSqrt {n : ℕ} (h : 1 ≤ n) : 1 ≤ ceilSqrt n := by
  unfold ceilSqrt
  split
  · rename_i hsq
    by_contra hlt
    have hz : Nat.sqrt n = 0 := by omega
    rw [hz] at hsq
    omega
  · omega

/-- The column count `ceil (sqrt n)` never exceeds `n` itself. -/
lemma ceilSqrt_le {n : ℕ} (h : 1 ≤ n) : ceilSqrt n ≤ n := by
  unfold ceilSqrt
  split
  · exact Nat.sqrt_le_self n
  · rename_i hne
    rcases Nat.lt_or_ge n 2 with hn2 | hn2
    · have hn1 : n = 1 := by omega
      subst hn1
      exact absurd (by norm_num [Nat.sqrt]) hne
    · have := Nat.sqrt_lt_self (by omega : 1 < n)
      omega

/-- The grid row count is at least 1 once there is an image. -/
lemma one_le_ceilDivNat {n c : ℕ} (hn : 1 ≤ n) (hc : 1 ≤ c) : 1 ≤ ceilDivNat n c := by
  unfold ceilDivNat
  rw [Nat.le_div_iff_mul_le hc]
  omega

/-- Every placement of the horizontal loop sits at or to the right of the
starting cursor. -/
lemma horizLoop_x_lower (sp sc ch : ℚ) (hsp : 0 ≤ sp) (hsc : 0 ≤ sc)
    (imgs : List Img) : ∀ x, ∀ p ∈ horizLoop sp sc ch x imgs, x ≤ p.x := by
  induction imgs with
  | nil => intro x p hp; simp [horizLoop] at hp
  | cons img rest ih =>
    intro x p hp
    simp only [horizLoop, List.mem_cons] at hp
    rcases hp with rfl | hp2
    · exact le_refl _
    · have h1 := ih (x + (img.width : ℚ) * sc + sp) p hp2
      have h2 : (0 : ℚ) ≤ (img.width : ℚ) * sc :=
        mul_nonneg (Nat.cast_nonneg _) hsc
      linarith

/-- Successive placements of the horizontal loop are separated along the
x-axis. -/
lemma horizLoop_pairwise_sep (sp sc ch : ℚ) (hsp : 0 ≤ sp) (hsc : 0 ≤ sc)
    (imgs : List Img) : ∀ x, (horizLoop sp sc ch x imgs).Pairwise
      (fun p q => p.x + p.scaledWidth ≤ q.x) := by
  induction imgs with
  | nil => intro x; simp [horizLoop]
  | cons img rest ih =>
    intro x
    simp only [horizLoop]
    refine List.Pairwise.cons ?_ (ih _)
    intro q hq
    have h1 := horizLoop_x_lower sp sc ch hsp hsc rest (x + (img.width : ℚ) * sc + sp) q hq
    show x + (img.width : ℚ) * sc ≤ q.x
    linarith

/-- Every placement of the vertical loop sits at or below the starting
cursor. -/
lemma vertLoop_y_lower (sp sc cw : ℚ) (hsp : 0 ≤ sp) (hsc : 0 ≤ sc)
    (imgs : List Img) : ∀ y, ∀ p ∈ vertLoop sp sc cw y imgs, y ≤ p.y := by
  induction imgs with
  | nil => intro y p hp; simp [vertLoop] at hp
  | cons img rest ih =>
    intro y p hp
    simp only [vertLoop, List.mem_cons] at hp
    rcases hp with rfl | hp2
    · exact le_refl _
    · have h1 := ih (y + (img.height : ℚ) * sc + sp) p hp2
      have h2 : (0 : ℚ) ≤ (img.height : ℚ) * sc :=
        mul_nonneg (Nat.cast_nonneg _) hsc
      linarith

/-- Successive placements of the vertical loop are separated along the
y-axis. -/
lemma vertLoop_pairwise_sep (sp sc cw : ℚ) (hsp : 0 ≤ sp) (hsc : 0 ≤ sc)
    (imgs : List Img) : ∀ y, (vertLoop sp sc cw y imgs).Pairwise
      (fun p q => p.y + p.scaledHeight ≤ q.y) := by
  induction imgs with
  | nil => intro y; simp [vertLoop]
  | cons img rest ih =>
    intro y
    simp only [vertLoop]
    refine List.Pairwise.cons ?_ (ih _)
    intro q hq
    have h1 := vertLoop_y_lower sp sc cw hsp hsc rest (y + (img.height : ℚ) * sc + sp) q hq
    show y + (img.height : ℚ) * sc ≤ q.y
    linarith

/-! ### Claim theorems -/

/-- C1: `mergeImages` called with fewer than two images returns a failure
carrying one of the two insufficient-input error messages; with two or more
images the failure branch is never taken. -/
theorem mergeImages_requires_two_images (files : List Img) (opts : MergeOptions) :
    (files.length < 2 →
      (mergeImages files opts = .failure "No images selected" ∨
       mergeImages files opts = .failure "Please select at least 2 images to merge")) ∧
    (2 ≤ files.length → ∀ e, mergeImages files opts ≠ .failure e) := by
  constructor
  · intro h
    match hl : files.length with
    | 0 => left; simp [mergeImages, hl]
    | 1 => right; simp [mergeImages, hl]
    | n + 2 => omega
  · intro h e
    have h0 : files.length ≠ 0 := by omega
    have h1 : files.length ≠ 1 := by omega
    simp [mergeImages, h0, h1]

/-- Witness for C1: a singleton list fails, a two-image list does not. -/
theorem mergeImages_requires_two_images_witness :
    (mergeImages [Img.mk 100 200] {} = .failure "No images selected" ∨
     mergeImages [Img.mk 100 200] {} = .failure "Please select at least 2 images to merge") ∧
    (∀ e, mergeImages [Img.mk 100 200, Img.mk 300 100] {} ≠ .failure e) :=
  ⟨(mergeImages_requires_two_images [Img.mk 100 200] {}).1 (by simp),
   fun e => (mergeImages_requires_two_images [Img.mk 100 200, Img.mk 300 100] {}).2
     (by simp) e⟩

/-- C10: an explicit `spacing = 0` or `maxWidth = 0` is falsy in JS, so
`mergeImages` behaves exactly as if the option were omitted (the defaults 10
resp. 1200 are applied); a spacing of zero pixels can never take effect. -/
theorem mergeImages_falsy_zero_defaults (files : List Img) (lay : Option Layout)
    (bg : Option String) (spOpt mwOpt : Option ℚ) :
    mergeImages files ⟨lay, some 0, bg, mwOpt⟩ = mergeImages files ⟨lay, none, bg, mwOpt⟩ ∧
    mergeImages files ⟨lay, spOpt, bg, some 0⟩ = mergeImages files ⟨lay, spOpt, bg, none⟩ := by
  simp [mergeImages, numOr]

/-- C2: in horizontal layout the canvas is
`(totalWidth + spacing*(n-1)) * scale` wide and `maxHeight * scale` high
with `scale = min 1 (maxWidth / totalWidth)`, up to flooring; for
100x200 and 300x100 with spacing 10 and maxWidth 1200 the canvas is
410 x 200. -/
theorem mergeImages_horizontal_canvas_dims (files : List Img) (sp mw : ℚ)
    (bg : Option String) (h2 : 2 ≤ files.length) (hsp : sp ≠ 0) (hmw : mw ≠ 0) :
    (∃ ps, mergeImages files ⟨some .horizontal, some sp, bg, some mw⟩ =
      .success
        ⟨⌊(((files.map Img.width).sum : ℚ) + sp * ((files.length : ℚ) - 1)) *
            min 1 (mw / ((files.map Img.width).sum : ℚ))⌋,
         ⌊(maxNat (files.map Img.height) : ℚ) *
            min 1 (mw / ((files.map Img.width).sum : ℚ))⌋,
         strOr bg "#ffffff"⟩ ps) ∧
    mergeImages [⟨100, 200⟩, ⟨300, 100⟩] ⟨some .horizontal, some 10, none, some 1200⟩ =
      .success ⟨410, 200, "#ffffff"⟩ [⟨0, 0, 100, 200⟩, ⟨110, 50, 300, 100⟩] := by
  constructor
  · have h0 : files.length ≠ 0 := by omega
    have h1 : files.length ≠ 1 := by omega
    refine ⟨drawPlacements .horizontal sp
      ⟨(canvasWidthRaw .horizontal sp mw files).floor,
       (canvasHeightRaw .horizontal sp mw files).floor, strOr bg "#ffffff"⟩ files, ?_⟩
    simp only [mergeImages, if_neg h0, if_neg h1, Option.getD_some, numOr,
      if_neg hsp, if_neg hmw, canvasWidthRaw, canvasHeightRaw, ratFloor_eq_intFloor]
  · simp only [mergeImages, canvasWidthRaw, canvasHeightRaw, drawPlacements, horizLoop,
      numOr, strOr, maxNat, ratFloor_eq_intFloor]
    norm_num

/-- Witness for C2 at two concrete images. -/
theorem mergeImages_horizontal_canvas_dims_witness :
    (∃ ps, mergeImages [⟨100, 200⟩, ⟨300, 100⟩]
        ⟨some .horizontal, some 10, none, some 1200⟩ =
      .success
        ⟨⌊((([(⟨100, 200⟩ : Img), ⟨300, 100⟩].map Img.width).sum : ℚ) +
              10 * (([(⟨100, 200⟩ : Img), ⟨300, 100⟩].length : ℚ) - 1)) *
            min 1 (1200 / (([(⟨100, 200⟩ : Img), ⟨300, 100⟩].map Img.width).sum : ℚ))⌋,
         ⌊(maxNat ([(⟨100, 200⟩ : Img), ⟨300, 100⟩].map Img.height) : ℚ) *
            min 1 (1200 / (([(⟨100, 200⟩ : Img), ⟨300, 100⟩].map Img.width).sum : ℚ))⌋,
         strOr none "#ffffff"⟩ ps) ∧
    mergeImages [⟨100, 200⟩, ⟨300, 100⟩] ⟨some .horizontal, some 10, none, some 1200⟩ =
      .success ⟨410, 200, "#ffffff"⟩ [⟨0, 0, 100, 200⟩, ⟨110, 50, 300, 100⟩] :=
  mergeImages_horizontal_canvas_dims [⟨100, 200⟩, ⟨300, 100⟩] 10 1200 none
    (by simp) (by norm_num) (by norm_num)

/-- C3: in vertical layout the canvas is `maxImgWidth * scale` wide and
`(totalHeight + spacing*(n-1)) * scale` high with
`scale = min 1 (maxWidth / maxImgWidth)`, up to flooring; for 100x200 and
300x100 with spacing 10 and maxWidth 1200 the canvas is 300 x 310. -/
theorem mergeImages_vertical_canvas_dims (files : List Img) (sp mw : ℚ)
    (bg : Option String) (h2 : 2 ≤ files.length) (hsp : sp ≠ 0) (hmw : mw ≠ 0) :
    (∃ ps, mergeImages files ⟨some .vertical, some sp, bg, some mw⟩ =
      .success
        ⟨⌊(maxNat (files.map Img.width) : ℚ) *
            min 1 (mw / (maxNat (files.map Img.width) : ℚ))⌋,
         ⌊(((files.map Img.height).sum : ℚ) + sp * ((files.length : ℚ) - 1)) *
            min 1 (mw / (maxNat (files.map Img.width) : ℚ))⌋,
         strOr bg "#ffffff"⟩ ps) ∧
    mergeImages [⟨100, 200⟩, ⟨300, 100⟩] ⟨some .vertical, some 10, none, some 1200⟩ =
      .success ⟨300, 310, "#ffffff"⟩ [⟨100, 0, 100, 200⟩, ⟨0, 210, 300, 100⟩] := by
  constructor
  · have h0 : files.length ≠ 0 := by omega
    have h1 : files.length ≠ 1 := by omega
    refine ⟨drawPlacements .vertical sp
      ⟨(canvasWidthRaw .vertical sp mw files).floor,
       (canvasHeightRaw .vertical sp mw files).floor, strOr bg "#ffffff"⟩ files, ?_⟩
    simp only [mergeImages, if_neg h0, if_neg h1, Option.getD_some, numOr,
      if_neg hsp, if_neg hmw, canvasWidthRaw, canvasHeightRaw, ratFloor_eq_intFloor]
  · simp only [mergeImages, canvasWidthRaw, canvasHeightRaw, drawPlacements, vertLoop,
      numOr, strOr, maxNat, ratFloor_eq_intFloor]
    norm_num

/-- Witness for C3 at two concrete images. -/
theorem mergeImages_vertical_canvas_dims_witness :
    (∃ ps, mergeImages [⟨100, 200⟩, ⟨300, 100⟩]
        ⟨some .vertical, some 10, none, some 1200⟩ =
      .success
        ⟨⌊(maxNat ([(⟨100, 200⟩ : Img), ⟨300, 100⟩].map Img.width) : ℚ) *
            min 1 (1200 / (maxNat ([(⟨100, 200⟩ : Img), ⟨300, 100⟩].map Img.width) : ℚ))⌋,
         ⌊((([(⟨100, 200⟩ : Img), ⟨300, 100⟩].map Img.height).sum : ℚ) +
              10 * (([(⟨100, 200⟩ : Img), ⟨300, 100⟩].length : ℚ) - 1)) *
            min 1 (1200 / (maxNat ([(⟨100, 200⟩ : Img), ⟨300, 100⟩].map Img.width) : ℚ))⌋,
         strOr none "#ffffff"⟩ ps) ∧
    mergeImages [⟨100, 200⟩, ⟨300, 100⟩] ⟨some .vertical, some 10, none, some 1200⟩ =
      .success ⟨300, 310, "#ffffff"⟩ [⟨100, 0, 100, 200⟩, ⟨0, 210, 300, 100⟩] :=
  mergeImages_vertical_canvas_dims [⟨100, 200⟩, ⟨300, 100⟩] 10 1200 none
    (by simp) (by norm_num) (by norm_num)

/-- C4: grid layout uses `cols = ceil (sqrt n)` columns and
`rows = ceil (n / cols)` rows (visible in the canvas dimensions), and image
`i` is placed in column `i % cols` and row `i / cols` at the cell pitch
`maxImgDim * scale + spacing`; concretely `n = 4` gives 2x2, `n = 5` gives
3 columns and 2 rows, and `n = 2` gives 2 columns and 1 row. -/
theorem mergeImages_grid_structure (files : List Img) (sp mw : ℚ)
    (bg : Option String) (h2 : 2 ≤ files.length) (hsp : sp ≠ 0) (hmw : mw ≠ 0) :
    (∀ c ps, mergeImages files ⟨some .grid, some sp, bg, some mw⟩ = .success c ps →
      ps.length = files.length ∧
      c.width = ⌊((maxNat (files.map Img.width) : ℚ) * (ceilSqrt files.length : ℚ) +
          sp * ((ceilSqrt files.length : ℚ) - 1)) *
          min 1 (mw / ((maxNat (files.map Img.width) : ℚ) * (ceilSqrt files.length : ℚ)))⌋ ∧
      c.height = ⌊((maxNat (files.map Img.height) : ℚ) *
            (ceilDivNat files.length (ceilSqrt files.length) : ℚ) +
          sp * ((ceilDivNat files.length (ceilSqrt files.length) : ℚ) - 1)) *
          min 1 (mw / ((maxNat (files.map Img.width) : ℚ) * (ceilSqrt files.length : ℚ)))⌋ ∧
      (∀ i, i < files.length →
        (ps.getD i default).x =
          ((i % ceilSqrt files.length : ℕ) : ℚ) *
            ((maxNat (files.map Img.width) : ℚ) *
              ((c.width : ℚ) /
                ((maxNat (files.map Img.width) : ℚ) * (ceilSqrt files.length : ℚ) +
                  sp * ((ceilSqrt files.length : ℚ) - 1))) + sp) ∧
        (ps.getD i default).y =
          ((i / ceilSqrt files.length : ℕ) : ℚ) *
            ((maxNat (files.map Img.height) : ℚ) *
              ((c.width : ℚ) /
                ((maxNat (files.map Img.width) : ℚ) * (ceilSqrt files.length : ℚ) +
                  sp * ((ceilSqrt files.length : ℚ) - 1))) + sp))) ∧
    (ceilSqrt 4 = 2 ∧ ceilDivNat 4 (ceilSqrt 4) = 2 ∧
     ceilSqrt 5 = 3 ∧ ceilDivNat 5 (ceilSqrt 5) = 2 ∧
     ceilSqrt 2 = 2 ∧ ceilDivNat 2 (ceilSqrt 2) = 1) := by
  have h0 : files.length ≠ 0 := by omega
  have h1 : files.length ≠ 1 := by omega
  constructor
  · intro c ps heq
    simp only [mergeImages, if_neg h0, if_neg h1, Option.getD_some, numOr,
      if_neg hsp, if_neg hmw, MergeResult.success.injEq] at heq
    obtain ⟨hc, hp⟩ := heq
    subst hc
    subst hp
    refine ⟨?_, ?_, ?_, ?_⟩
    · simp only [drawPlacements]
      exact gridLoop_length _ _ _ _ _ _ _
    · simp only [canvasWidthRaw, ratFloor_eq_intFloor]
    · simp only [canvasHeightRaw, ratFloor_eq_intFloor]
    · intro i hi
      simp only [drawPlacements]
      rw [gridLoop_getD _ _ _ _ _ _ 0 i hi]
      simp
  · norm_num [ceilSqrt, ceilDivNat, Nat.sqrt]

/-- Witness for C4 at two concrete images. -/
theorem mergeImages_grid_structure_witness :
    (∀ c ps, mergeImages [(⟨100, 200⟩ : Img), ⟨300, 100⟩]
        ⟨some .grid, some 10, none, some 1200⟩ = .success c ps →
      ps.length = [(⟨100, 200⟩ : Img), ⟨300, 100⟩].length ∧
      c.width = ⌊((maxNat ([(⟨100, 200⟩ : Img), ⟨300, 100⟩].map Img.width) : ℚ) *
          (ceilSqrt [(⟨100, 200⟩ : Img), ⟨300, 100⟩].length : ℚ) +
          10 * ((ceilSqrt [(⟨100, 200⟩ : Img), ⟨300, 100⟩].length : ℚ) - 1)) *
          min 1 (1200 / ((maxNat ([(⟨100, 200⟩ : Img), ⟨300, 100⟩].map Img.width) : ℚ) *
            (ceilSqrt [(⟨100, 200⟩ : Img), ⟨300, 100⟩].length : ℚ)))⌋ ∧
      c.height = ⌊((maxNat ([(⟨100, 200⟩ : Img), ⟨300, 100⟩].map Img.height) : ℚ) *
            (ceilDivNat [(⟨100, 200⟩ : Img), ⟨300, 100⟩].length
              (ceilSqrt [(⟨100, 200⟩ : Img), ⟨300, 100⟩].length) : ℚ) +
          10 * ((ceilDivNat [(⟨100, 200⟩ : Img), ⟨300, 100⟩].length
              (ceilSqrt [(⟨100, 200⟩ : Img), ⟨300, 100⟩].length) : ℚ) - 1)) *
          min 1 (1200 / ((maxNat ([(⟨100, 200⟩ : Img), ⟨300, 100⟩].map Img.width) : ℚ) *
            (ceilSqrt [(⟨100, 200⟩ : Img), ⟨300, 100⟩].length : ℚ)))⌋ ∧
      (∀ i, i < [(⟨100, 200⟩ : Img), ⟨300, 100⟩].length →
        (ps.getD i default).x =
          ((i % ceilSqrt [(⟨100, 200⟩ : Img), ⟨300, 100⟩].length : ℕ) : ℚ) *
            ((maxNat ([(⟨100, 200⟩ : Img), ⟨300, 100⟩].map Img.width) : ℚ) *
              ((c.width : ℚ) /
                ((maxNat ([(⟨100, 200⟩ : Img), ⟨300, 100⟩].map Img.width) : ℚ) *
                  (ceilSqrt [(⟨100, 200⟩ : Img), ⟨300, 100⟩].length : ℚ) +
                  10 * ((ceilSqrt [(⟨100, 200⟩ : Img), ⟨300, 100⟩].length : ℚ) - 1))) + 10) ∧
        (ps.getD i default).y =
          ((i / ceilSqrt [(⟨100, 200⟩ : Img), ⟨300, 100⟩].length : ℕ) : ℚ) *
            ((maxNat ([(⟨100, 200⟩ : Img), ⟨300, 100⟩].map Img.height) : ℚ) *
              ((c.width : ℚ) /
                ((maxNat ([(⟨100, 200⟩ : Img), ⟨300, 100⟩].map Img.width) : ℚ) *
                  (ceilSqrt [(⟨100, 200⟩ : Img), ⟨300, 100⟩].length : ℚ) +
                  10 * ((ceilSqrt [(⟨100, 200⟩ : Img), ⟨300, 100⟩].length : ℚ) - 1))) + 10))) ∧
    (ceilSqrt 4 = 2 ∧ ceilDivNat 4 (ceilSqrt 4) = 2 ∧
     ceilSqrt 5 = 3 ∧ ceilDivNat 5 (ceilSqrt 5) = 2 ∧
     ceilSqrt 2 = 2 ∧ ceilDivNat 2 (ceilSqrt 2) = 1) :=
  mergeImages_grid_structure [⟨100, 200⟩, ⟨300, 100⟩] 10 1200 none
    (by simp) (by norm_num) (by norm_num)

/-- C7: in horizontal layout every image is drawn at the draw-time scale
`canvas.height / maxHeight`, vertically centered at
`offsetY = (canvasHeight - scaledHeight) / 2`, and the horizontal cursor
starts at 0 and advances by `scaledWidth + spacing` in input order. -/
theorem mergeImages_horizontal_placements (files : List Img) (sp mw : ℚ)
    (bg : Option String) (h2 : 2 ≤ files.length) (hsp : sp ≠ 0) (hmw : mw ≠ 0) :
    ∀ c ps, mergeImages files ⟨some .horizontal, some sp, bg, some mw⟩ = .success c ps →
      ps.length = files.length ∧
      (∀ i, i < files.length →
        (ps.getD i default).scaledWidth =
          ((files.getD i default).width : ℚ) *
            ((c.height : ℚ) / (maxNat (files.map Img.height) : ℚ)) ∧
        (ps.getD i default).scaledHeight =
          ((files.getD i default).height : ℚ) *
            ((c.height : ℚ) / (maxNat (files.map Img.height) : ℚ)) ∧
        (ps.getD i default).y = ((c.height : ℚ) - (ps.getD i default).scaledHeight) / 2) ∧
      (ps.getD 0 default).x = 0 ∧
      (∀ i, i + 1 < files.length →
        (ps.getD (i + 1) default).x =
          (ps.getD i default).x + (ps.getD i default).scaledWidth + sp) := by
  have h0 : files.length ≠ 0 := by omega
  have h1 : files.length ≠ 1 := by omega
  intro c ps heq
  simp only [mergeImages, if_neg h0, if_neg h1, Option.getD_some, numOr,
    if_neg hsp, if_neg hmw, MergeResult.success.injEq] at heq
  obtain ⟨hc, hp⟩ := heq
  subst hc
  subst hp
  refine ⟨?_, ?_, ?_, ?_⟩
  · simp only [drawPlacements]
    exact horizLoop_length _ _ _ _ _
  · intro i hi
    simp only [drawPlacements]
    have hf := horizLoop_getD_fields sp
      ((((canvasHeightRaw .horizontal sp mw files).floor : ℤ) : ℚ) /
        (maxNat (files.map Img.height) : ℚ))
      (((canvasHeightRaw .horizontal sp mw files).floor : ℤ) : ℚ) files 0 i hi
    refine ⟨?_, ?_, ?_⟩
    · have := congrArg Placement.scaledWidth hf
      simpa using this
    · have := congrArg Placement.scaledHeight hf
      simpa using this
    · have hy := congrArg Placement.y hf
      have hh := congrArg Placement.scaledHeight hf
      simp only at hy hh
      rw [hy, hh]
  · obtain ⟨f, rest, rfl⟩ : ∃ f rest, files = f :: rest := by
      match files, h2 with
      | f :: rest, _ => exact ⟨f, rest, rfl⟩
    simp only [drawPlacements]
    exact horizLoop_getD_zero_x _ _ _ _ _ _
  · intro i hi
    simp only [drawPlacements]
    exact horizLoop_getD_succ_x _ _ _ files _ i hi

/-- Witness for C7 at two concrete images and the concrete merge result. -/
theorem mergeImages_horizontal_placements_witness :
    [(⟨0, 0, 100, 200⟩ : Placement), ⟨110, 50, 300, 100⟩].length =
      [(⟨100, 200⟩ : Img), ⟨300, 100⟩].length ∧
    (∀ i, i < [(⟨100, 200⟩ : Img), ⟨300, 100⟩].length →
      ([(⟨0, 0, 100, 200⟩ : Placement), ⟨110, 50, 300, 100⟩].getD i default).scaledWidth =
        (([(⟨100, 200⟩ : Img), ⟨300, 100⟩].getD i default).width : ℚ) *
          ((((⟨410, 200, "#ffffff"⟩ : Canvas).height : ℤ) : ℚ) /
            (maxNat ([(⟨100, 200⟩ : Img), ⟨300, 100⟩].map Img.height) : ℚ)) ∧
      ([(⟨0, 0, 100, 200⟩ : Placement), ⟨110, 50, 300, 100⟩].getD i default).scaledHeight =
        (([(⟨100, 200⟩ : Img), ⟨300, 100⟩].getD i default).height : ℚ) *
          ((((⟨410, 200, "#ffffff"⟩ : Canvas).height : ℤ) : ℚ) /
            (maxNat ([(⟨100, 200⟩ : Img), ⟨300, 100⟩].map Img.height) : ℚ)) ∧
      ([(⟨0, 0, 100, 200⟩ : Placement), ⟨110, 50, 300, 100⟩].getD i default).y =
        ((((⟨410, 200, "#ffffff"⟩ : Canvas).height : ℤ) : ℚ) -
          ([(⟨0, 0, 100, 200⟩ : Placement),
            ⟨110, 50, 300, 100⟩].getD i default).scaledHeight) / 2) ∧
    ([(⟨0, 0, 100, 200⟩ : Placement), ⟨110, 50, 300, 100⟩].getD 0 default).x = 0 ∧
    (∀ i, i + 1 < [(⟨100, 200⟩ : Img), ⟨300, 100⟩].length →
      ([(⟨0, 0, 100, 200⟩ : Placement), ⟨110, 50, 300, 100⟩].getD (i + 1) default).x =
        ([(⟨0, 0, 100, 200⟩ : Placement), ⟨110, 50, 300, 100⟩].getD i default).x +
          ([(⟨0, 0, 100, 200⟩ : Placement),
            ⟨110, 50, 300, 100⟩].getD i default).scaledWidth + 10) :=
  mergeImages_horizontal_placements [⟨100, 200⟩, ⟨300, 100⟩] 10 1200 none
    (by simp) (by norm_num) (by norm_num) ⟨410, 200, "#ffffff"⟩
    [⟨0, 0, 100, 200⟩, ⟨110, 50, 300, 100⟩]
    (by
      simp only [mergeImages, canvasWidthRaw, canvasHeightRaw, drawPlacements,
        horizLoop, numOr, strOr, maxNat, ratFloor_eq_intFloor]
      norm_num)

/-- Counterexample to C8: two 1000x1000 images, spacing 100, maxWidth 1200,
horizontal layout.  The canvas is 1260 wide, but the per-image advances sum
(minus the trailing spacing) to 1300: the canvas scales the spacing by the
width-driven scale while the cursor advances by the unscaled spacing. -/
theorem mergeImages_advance_sum_counterexample :
    mergeImages [(⟨1000, 1000⟩ : Img), ⟨1000, 1000⟩]
        ⟨some .horizontal, some 100, none, some 1200⟩ =
      .success ⟨1260, 600, "#ffffff"⟩ [⟨0, 0, 600, 600⟩, ⟨700, 0, 600, 600⟩] ∧
    ((([(⟨0, 0, 600, 600⟩ : Placement), ⟨700, 0, 600, 600⟩]).map
        (fun p => p.scaledWidth + 100)).sum - 100 : ℚ) = 1300 ∧
    (1260 : ℚ) + 1 < 1300 := by
  refine ⟨?_, by norm_num, by norm_num⟩
  simp only [mergeImages, canvasWidthRaw, canvasHeightRaw, drawPlacements, horizLoop,
    numOr, strOr, maxNat, ratFloor_eq_intFloor]
  norm_num

/-- C8 as amended: when no downscaling occurs (the unscaled content fits the
width budget, so `scale = 1`) and the spacing is integral, the sum of the
per-image advances minus the one trailing spacing equals the canvas width
(horizontal) resp. canvas height (vertical) exactly. -/
theorem mergeImages_advance_sum_no_downscale (files : List Img) (sp : ℕ) (mw : ℚ)
    (bg : Option String) (h2 : 2 ≤ files.length) (hsp : sp ≠ 0) (hmw : mw ≠ 0)
    (hdims : ∀ img ∈ files, 0 < img.width ∧ 0 < img.height) :
    (((files.map Img.width).sum : ℚ) ≤ mw →
      ∀ c ps, mergeImages files ⟨some .horizontal, some (sp : ℚ), bg, some mw⟩ =
          .success c ps →
        ((ps.map (fun p => p.scaledWidth + (sp : ℚ))).sum) - sp = (c.width : ℚ)) ∧
    ((maxNat (files.map Img.width) : ℚ) ≤ mw →
      ∀ c ps, mergeImages files ⟨some .vertical, some (sp : ℚ), bg, some mw⟩ =
          .success c ps →
        ((ps.map (fun p => p.scaledHeight + (sp : ℚ))).sum) - sp = (c.height : ℚ)) := by
  have h0 : files.length ≠ 0 := by omega
  have h1 : files.length ≠ 1 := by omega
  have h1n : 1 ≤ files.length := by omega
  have hspq : (sp : ℚ) ≠ 0 := Nat.cast_ne_zero.mpr hsp
  have hne : files ≠ [] := by intro h; rw [h] at h2; simp at h2
  have hmaxH : 0 < maxNat (files.map Img.height) := by
    obtain ⟨img, hmem⟩ := List.exists_mem_of_ne_nil files hne
    exact lt_of_lt_of_le (hdims img hmem).2 (le_maxNat (List.mem_map_of_mem _ hmem))
  have hmaxW : 0 < maxNat (files.map Img.width) := by
    obtain ⟨img, hmem⟩ := List.exists_mem_of_ne_nil files hne
    exact lt_of_lt_of_le (hdims img hmem).1 (le_maxNat (List.mem_map_of_mem _ hmem))
  constructor
  · intro htw c ps heq
    simp only [mergeImages, if_neg h0, if_neg h1, Option.getD_some, numOr,
      if_neg hspq, if_neg hmw, MergeResult.success.injEq] at heq
    obtain ⟨hc, hp⟩ := heq
    subst hc
    subst hp
    have htwpos : 0 < (files.map Img.width).sum := by
      apply List.sum_pos
      · intro w hw
        obtain ⟨img, hmem, rfl⟩ := List.mem_map.mp hw
        exact (hdims img hmem).1
      · simpa using hne
    have htwposq : (0 : ℚ) < ((files.map Img.width).sum : ℚ) := by exact_mod_cast htwpos
    have hminW : min 1 (mw / ((files.map Img.width).sum : ℚ)) = 1 :=
      min_eq_left ((one_le_div htwposq).mpr htw)
    have hch : canvasHeightRaw .horizontal (sp : ℚ) mw files =
        (maxNat (files.map Img.height) : ℚ) := by
      simp only [canvasHeightRaw, hminW, mul_one]
    have hmaxHq : (0 : ℚ) < (maxNat (files.map Img.height) : ℚ) := by exact_mod_cast hmaxH
    have hsc : ((⌊canvasHeightRaw .horizontal (sp : ℚ) mw files⌋ : ℤ) : ℚ) /
        (maxNat (files.map Img.height) : ℚ) = 1 := by
      rw [hch, Int.floor_natCast]
      exact div_self (ne_of_gt hmaxHq)
    have hcw : canvasWidthRaw .horizontal (sp : ℚ) mw files =
        (((files.map Img.width).sum + sp * (files.length - 1) : ℕ) : ℚ) := by
      simp only [canvasWidthRaw, hminW, mul_one]
      push_cast [Nat.cast_sub h1n]
      ring
    simp only [drawPlacements, ratFloor_eq_intFloor]
    rw [horizLoop_sum_advance, hsc, one_mul, hcw, Int.floor_natCast]
    generalize (files.map Img.width).sum = S
    push_cast [Nat.cast_sub h1n]
    ring
  · intro hmwle c ps heq
    simp only [mergeImages, if_neg h0, if_neg h1, Option.getD_some, numOr,
      if_neg hspq, if_neg hmw, MergeResult.success.injEq] at heq
    obtain ⟨hc, hp⟩ := heq
    subst hc
    subst hp
    have hmaxWq : (0 : ℚ) < (maxNat (files.map Img.width) : ℚ) := by exact_mod_cast hmaxW
    have hminW : min 1 (mw / (maxNat (files.map Img.width) : ℚ)) = 1 :=
      min_eq_left ((one_le_div hmaxWq).mpr hmwle)
    have hcw : canvasWidthRaw .vertical (sp : ℚ) mw files =
        (maxNat (files.map Img.width) : ℚ) := by
      simp only [canvasWidthRaw, hminW, mul_one]
    have hsc : ((⌊canvasWidthRaw .vertical (sp : ℚ) mw files⌋ : ℤ) : ℚ) /
        (maxNat (files.map Img.width) : ℚ) = 1 := by
      rw [hcw, Int.floor_natCast]
      exact div_self (ne_of_gt hmaxWq)
    have hchv : canvasHeightRaw .vertical (sp : ℚ) mw files =
        (((files.map Img.height).sum + sp * (files.length - 1) : ℕ) : ℚ) := by
      simp only [canvasHeightRaw, hminW, mul_one]
      push_cast [Nat.cast_sub h1n]
      ring
    simp only [drawPlacements, ratFloor_eq_intFloor]
    rw [vertLoop_sum_advance, hsc, one_mul, hchv, Int.floor_natCast]
    generalize (files.map Img.height).sum = S
    push_cast [Nat.cast_sub h1n]
    ring

/-- Witness for the amended C8 at two concrete images that fit the width
budget. -/
theorem mergeImages_advance_sum_no_downscale_witness :
    ((([(⟨100, 200⟩ : Img), ⟨300, 100⟩].map Img.width).sum : ℚ) ≤ 1200 →
      ∀ c ps, mergeImages [(⟨100, 200⟩ : Img), ⟨300, 100⟩]
          ⟨some .horizontal, some ((10 : ℕ) : ℚ), none, some 1200⟩ = .success c ps →
        ((ps.map (fun p => p.scaledWidth + ((10 : ℕ) : ℚ))).sum) - (10 : ℕ) =
          (c.width : ℚ)) ∧
    ((maxNat ([(⟨100, 200⟩ : Img), ⟨300, 100⟩].map Img.width) : ℚ) ≤ 1200 →
      ∀ c ps, mergeImages [(⟨100, 200⟩ : Img), ⟨300, 100⟩]
          ⟨some .vertical, some ((10 : ℕ) : ℚ), none, some 1200⟩ = .success c ps →
        ((ps.map (fun p => p.scaledHeight + ((10 : ℕ) : ℚ))).sum) - (10 : ℕ) =
          (c.height : ℚ)) :=
  mergeImages_advance_sum_no_downscale [⟨100, 200⟩, ⟨300, 100⟩] 10 1200 none
    (by simp) (by norm_num) (by norm_num) (by decide)

/-- Counterexample to C5: two 12000x100 images merged horizontally with
spacing 1000 and maxWidth 1200 produce a canvas 1250 wide — 50 pixels over
the configured maxWidth, far beyond rounding tolerance, because the spacing
term is added after the scale was computed from the unspaced total width. -/
theorem mergeImages_width_bound_counterexample :
    mergeImages [(⟨12000, 100⟩ : Img), ⟨12000, 100⟩]
        ⟨some .horizontal, some 1000, none, some 1200⟩ =
      .success ⟨1250, 5, "#ffffff"⟩ [⟨0, 0, 600, 5⟩, ⟨1600, 0, 600, 5⟩] ∧
    (1200 : ℤ) + 50 = 1250 := by
  refine ⟨?_, by norm_num⟩
  simp only [mergeImages, canvasWidthRaw, canvasHeightRaw, drawPlacements, horizLoop,
    numOr, strOr, maxNat, ratFloor_eq_intFloor]
  norm_num

/-- C5 as amended: for every layout the computed canvas width and height are
positive before integer truncation, and the (floored) canvas width is at
most `maxWidth + spacing*(n-1)` — not `maxWidth` itself, which horizontal
and grid layouts can exceed by the unscaled part of the spacing term. -/
theorem mergeImages_dims_positive_and_width_bounded (files : List Img)
    (layout : Layout) (sp mw : ℚ) (bg : Option String) (h2 : 2 ≤ files.length)
    (hdims : ∀ img ∈ files, 0 < img.width ∧ 0 < img.height)
    (hsp : 0 < sp) (hmw : 0 < mw) :
    0 < canvasWidthRaw layout sp mw files ∧
    0 < canvasHeightRaw layout sp mw files ∧
    ∀ c ps, mergeImages files ⟨some layout, some sp, bg, some mw⟩ = .success c ps →
      (c.width : ℚ) ≤ mw + sp * ((files.length : ℚ) - 1) := by
  have h0 : files.length ≠ 0 := by omega
  have h1 : files.length ≠ 1 := by omega
  have hne : files ≠ [] := by intro h; rw [h] at h2; simp at h2
  have hnq : (2 : ℚ) ≤ (files.length : ℚ) := by exact_mod_cast h2
  have hn1 : (0 : ℚ) ≤ (files.length : ℚ) - 1 := by linarith
  have hB : (0 : ℚ) ≤ sp * ((files.length : ℚ) - 1) := mul_nonneg (le_of_lt hsp) hn1
  have htwpos : 0 < (files.map Img.width).sum := by
    apply List.sum_pos
    · intro w hw
      obtain ⟨img, hmem, rfl⟩ := List.mem_map.mp hw
      exact (hdims img hmem).1
    · simpa using hne
  have htwq : (0 : ℚ) < ((files.map Img.width).sum : ℚ) := by exact_mod_cast htwpos
  have hthpos : 0 < (files.map Img.height).sum := by
    apply List.sum_pos
    · intro h hh
      obtain ⟨img, hmem, rfl⟩ := List.mem_map.mp hh
      exact (hdims img hmem).2
    · simpa using hne
  have hthq : (0 : ℚ) < ((files.map Img.height).sum : ℚ) := by exact_mod_cast hthpos
  have hmaxW : 0 < maxNat (files.map Img.width) := by
    obtain ⟨img, hmem⟩ := List.exists_mem_of_ne_nil files hne
    exact lt_of_lt_of_le (hdims img hmem).1 (le_maxNat (List.mem_map_of_mem _ hmem))
  have hmaxWq : (0 : ℚ) < (maxNat (files.map Img.width) : ℚ) := by exact_mod_cast hmaxW
  have hmaxH : 0 < maxNat (files.map Img.height) := by
    obtain ⟨img, hmem⟩ := List.exists_mem_of_ne_nil files hne
    exact lt_of_lt_of_le (hdims img hmem).2 (le_maxNat (List.mem_map_of_mem _ hmem))
  have hmaxHq : (0 : ℚ) < (maxNat (files.map Img.height) : ℚ) := by exact_mod_cast hmaxH
  have hcols1 : 1 ≤ ceilSqrt files.length := one_le_ceilSqrt (by omega)
  have hcolsn : ceilSqrt files.length ≤ files.length := ceilSqrt_le (by omega)
  have hrows1 : 1 ≤ ceilDivNat files.length (ceilSqrt files.length) :=
    one_le_ceilDivNat (by omega) hcols1
  have hcols1q : (1 : ℚ) ≤ (ceilSqrt files.length : ℚ) := by exact_mod_cast hcols1
  have hcolsnq : (ceilSqrt files.length : ℚ) ≤ (files.length : ℚ) := by
    exact_mod_cast hcolsn
  have hrows1q : (1 : ℚ) ≤ (ceilDivNat files.length (ceilSqrt files.length) : ℚ) := by
    exact_mod_cast hrows1
  have hgridA : (0 : ℚ) < (maxNat (files.map Img.width) : ℚ) * (ceilSqrt files.length : ℚ) :=
    mul_pos hmaxWq (by linarith)
  have hwidth_le : canvasWidthRaw layout sp mw files ≤ mw + sp * ((files.length : ℚ) - 1) := by
    cases layout with
    | horizontal =>
      simp only [canvasWidthRaw]
      exact mul_min_le_budget htwq hB
    | vertical =>
      simp only [canvasWidthRaw]
      have hs2 : min 1 (mw / (maxNat (files.map Img.width) : ℚ)) ≤
          mw / (maxNat (files.map Img.width) : ℚ) := min_le_right _ _
      have : (maxNat (files.map Img.width) : ℚ) *
          min 1 (mw / (maxNat (files.map Img.width) : ℚ)) ≤ mw := by
        calc (maxNat (files.map Img.width) : ℚ) *
              min 1 (mw / (maxNat (files.map Img.width) : ℚ)) ≤
            (maxNat (files.map Img.width) : ℚ) *
              (mw / (maxNat (files.map Img.width) : ℚ)) :=
              mul_le_mul_of_nonneg_left hs2 (le_of_lt hmaxWq)
          _ = mw := by field_simp
      linarith
    | grid =>
      simp only [canvasWidthRaw]
      have hBc : (0 : ℚ) ≤ sp * ((ceilSqrt files.length : ℚ) - 1) :=
        mul_nonneg (le_of_lt hsp) (by linarith)
      have hmain := @mul_min_le_budget
        ((maxNat (files.map Img.width) : ℚ) * (ceilSqrt files.length : ℚ))
        (sp * ((ceilSqrt files.length : ℚ) - 1)) mw hgridA hBc
      have hBle : sp * ((ceilSqrt files.length : ℚ) - 1) ≤
          sp * ((files.length : ℚ) - 1) :=
        mul_le_mul_of_nonneg_left (by linarith) (le_of_lt hsp)
      linarith
  refine ⟨?_, ?_, ?_⟩
  · cases layout with
    | horizontal =>
      simp only [canvasWidthRaw]
      exact mul_pos (by linarith) (mul_min_pos htwq hmw)
    | vertical =>
      simp only [canvasWidthRaw]
      exact mul_pos hmaxWq (mul_min_pos hmaxWq hmw)
    | grid =>
      simp only [canvasWidthRaw]
      have hBc : (0 : ℚ) ≤ sp * ((ceilSqrt files.length : ℚ) - 1) :=
        mul_nonneg (le_of_lt hsp) (by linarith)
      exact mul_pos (by linarith) (mul_min_pos hgridA hmw)
  · cases layout with
    | horizontal =>
      simp only [canvasHeightRaw]
      exact mul_pos hmaxHq (mul_min_pos htwq hmw)
    | vertical =>
      simp only [canvasHeightRaw]
      exact mul_pos (by linarith) (mul_min_pos hmaxWq hmw)
    | grid =>
      simp only [canvasHeightRaw]
      have hrB : (0 : ℚ) ≤ sp * ((ceilDivNat files.length (ceilSqrt files.length) : ℚ) - 1) :=
        mul_nonneg (le_of_lt hsp) (by linarith)
      have hA : (0 : ℚ) < (maxNat (files.map Img.height) : ℚ) *
          (ceilDivNat files.length (ceilSqrt files.length) : ℚ) :=
        mul_pos hmaxHq (by linarith)
      exact mul_pos (by linarith) (mul_min_pos hgridA hmw)
  · intro c ps heq
    simp only [mergeImages, if_neg h0, if_neg h1, Option.getD_some, numOr,
      if_neg (ne_of_gt hsp), if_neg (ne_of_gt hmw), MergeResult.success.injEq] at heq
    obtain ⟨hc, hp⟩ := heq
    subst hc
    have hfl : (((canvasWidthRaw layout sp mw files).floor : ℤ) : ℚ) ≤
        canvasWidthRaw layout sp mw files := by
      rw [ratFloor_eq_intFloor]
      exact Int.floor_le _
    exact le_trans hfl hwidth_le

/-- Witness for the amended C5 at two concrete images in horizontal layout. -/
theorem mergeImages_dims_positive_and_width_bounded_witness :
    0 < canvasWidthRaw .horizontal 10 1200 [(⟨100, 200⟩ : Img), ⟨300, 100⟩] ∧
    0 < canvasHeightRaw .horizontal 10 1200 [(⟨100, 200⟩ : Img), ⟨300, 100⟩] ∧
    ∀ c ps, mergeImages [(⟨100, 200⟩ : Img), ⟨300, 100⟩]
        ⟨some .horizontal, some 10, none, some 1200⟩ = .success c ps →
      (c.width : ℚ) ≤ 1200 + 10 * (([(⟨100, 200⟩ : Img), ⟨300, 100⟩].length : ℚ) - 1) :=
  mergeImages_dims_positive_and_width_bounded [⟨100, 200⟩, ⟨300, 100⟩] .horizontal
    10 1200 none (by simp) (by decide) (by norm_num) (by norm_num)

/-- Counterexample to C6: two 100x100 images in grid layout with the default
spacing 10 and maxWidth 1200 produce a canvas only 210 wide, so the claim
that the grid canvas width equals the configured maxWidth is false. -/
theorem mergeImages_grid_width_not_maxWidth :
    mergeImages [(⟨100, 100⟩ : Img), ⟨100, 100⟩]
        ⟨some .grid, some 10, none, some 1200⟩ =
      .success ⟨210, 100, "#ffffff"⟩ [⟨0, 0, 100, 100⟩, ⟨110, 0, 100, 100⟩] ∧
    (210 : ℤ) ≠ 1200 := by
  refine ⟨?_, by norm_num⟩
  simp only [mergeImages, canvasWidthRaw, canvasHeightRaw, drawPlacements, gridLoop,
    numOr, strOr, maxNat, ceilSqrt, ceilDivNat, ratFloor_eq_intFloor]
  norm_num

/-- C6 as amended: in grid layout the per-image drawing scale equals
`canvasWidth / (maxImgWidth*cols + spacing*(cols-1))` where `canvasWidth` is
the actual (floored) canvas width
`⌊(maxImgWidth*cols + spacing*(cols-1)) * min 1 (maxWidth/(maxImgWidth*cols))⌋`,
which in general differs from the configured maxWidth. -/
theorem mergeImages_grid_draw_scale (files : List Img) (sp mw : ℚ)
    (bg : Option String) (h2 : 2 ≤ files.length) (hsp : sp ≠ 0) (hmw : mw ≠ 0) :
    ∀ c ps, mergeImages files ⟨some .grid, some sp, bg, some mw⟩ = .success c ps →
      c.width = ⌊((maxNat (files.map Img.width) : ℚ) * (ceilSqrt files.length : ℚ) +
          sp * ((ceilSqrt files.length : ℚ) - 1)) *
          min 1 (mw / ((maxNat (files.map Img.width) : ℚ) *
            (ceilSqrt files.length : ℚ)))⌋ ∧
      ps.length = files.length ∧
      ∀ i, i < files.length →
        (ps.getD i default).scaledWidth =
          ((files.getD i default).width : ℚ) *
            ((c.width : ℚ) /
              ((maxNat (files.map Img.width) : ℚ) * (ceilSqrt files.length : ℚ) +
                sp * ((ceilSqrt files.length : ℚ) - 1))) ∧
        (ps.getD i default).scaledHeight =
          ((files.getD i default).height : ℚ) *
            ((c.width : ℚ) /
              ((maxNat (files.map Img.width) : ℚ) * (ceilSqrt files.length : ℚ) +
                sp * ((ceilSqrt files.length : ℚ) - 1))) := by
  have h0 : files.length ≠ 0 := by omega
  have h1 : files.length ≠ 1 := by omega
  intro c ps heq
  simp only [mergeImages, if_neg h0, if_neg h1, Option.getD_some, numOr,
    if_neg hsp, if_neg hmw, MergeResult.success.injEq] at heq
  obtain ⟨hc, hp⟩ := heq
  subst hc
  subst hp
  refine ⟨?_, ?_, ?_⟩
  · simp only [canvasWidthRaw, ratFloor_eq_intFloor]
  · simp only [drawPlacements]
    exact gridLoop_length _ _ _ _ _ _ _
  · intro i hi
    simp only [drawPlacements]
    have hg := gridLoop_getD (ceilSqrt files.length)
      (maxNat (files.map Img.width) : ℚ) (maxNat (files.map Img.height) : ℚ) sp
      ((((canvasWidthRaw .grid sp mw files).floor : ℤ) : ℚ) /
        ((maxNat (files.map Img.width) : ℚ) * (ceilSqrt files.length : ℚ) +
          sp * ((ceilSqrt files.length : ℚ) - 1)))
      files 0 i hi
    constructor
    · have := congrArg Placement.scaledWidth hg
      simpa using this
    · have := congrArg Placement.scaledHeight hg
      simpa using this

/-- Witness for the amended C6 at two concrete images and the concrete
merge result. -/
theorem mergeImages_grid_draw_scale_witness :
    (⟨610, 200, "#ffffff"⟩ : Canvas).width =
      ⌊((maxNat ([(⟨100, 200⟩ : Img), ⟨300, 100⟩].map Img.width) : ℚ) *
          (ceilSqrt [(⟨100, 200⟩ : Img), ⟨300, 100⟩].length : ℚ) +
          10 * ((ceilSqrt [(⟨100, 200⟩ : Img), ⟨300, 100⟩].length : ℚ) - 1)) *
          min 1 (1200 / ((maxNat ([(⟨100, 200⟩ : Img), ⟨300, 100⟩].map Img.width) : ℚ) *
            (ceilSqrt [(⟨100, 200⟩ : Img), ⟨300, 100⟩].length : ℚ)))⌋ ∧
    [(⟨0, 0, 100, 200⟩ : Placement), ⟨310, 0, 300, 100⟩].length =
      [(⟨100, 200⟩ : Img), ⟨300, 100⟩].length ∧
    ∀ i, i < [(⟨100, 200⟩ : Img), ⟨300, 100⟩].length →
      ([(⟨0, 0, 100, 200⟩ : Placement), ⟨310, 0, 300, 100⟩].getD i default).scaledWidth =
        (([(⟨100, 200⟩ : Img), ⟨300, 100⟩].getD i default).width : ℚ) *
          ((((⟨610, 200, "#ffffff"⟩ : Canvas).width : ℤ) : ℚ) /
            ((maxNat ([(⟨100, 200⟩ : Img), ⟨300, 100⟩].map Img.width) : ℚ) *
              (ceilSqrt [(⟨100, 200⟩ : Img), ⟨300, 100⟩].length : ℚ) +
              10 * ((ceilSqrt [(⟨100, 200⟩ : Img), ⟨300, 100⟩].length : ℚ) - 1))) ∧
      ([(⟨0, 0, 100, 200⟩ : Placement), ⟨310, 0, 300, 100⟩].getD i default).scaledHeight =
        (([(⟨100, 200⟩ : Img), ⟨300, 100⟩].getD i default).height : ℚ) *
          ((((⟨610, 200, "#ffffff"⟩ : Canvas).width : ℤ) : ℚ) /
            ((maxNat ([(⟨100, 200⟩ : Img), ⟨300, 100⟩].map Img.width) : ℚ) *
              (ceilSqrt [(⟨100, 200⟩ : Img), ⟨300, 100⟩].length : ℚ) +
              10 * ((ceilSqrt [(⟨100, 200⟩ : Img), ⟨300, 100⟩].length : ℚ) - 1))) :=
  mergeImages_grid_draw_scale [⟨100, 200⟩, ⟨300, 100⟩] 10 1200 none
    (by simp) (by norm_num) (by norm_num) ⟨610, 200, "#ffffff"⟩
    [⟨0, 0, 100, 200⟩, ⟨310, 0, 300, 100⟩]
    (by
      simp only [mergeImages, canvasWidthRaw, canvasHeightRaw, drawPlacements,
        gridLoop, numOr, strOr, maxNat, ceilSqrt, ceilDivNat, ratFloor_eq_intFloor]
      norm_num)

/-- C9: for every non-negative spacing and maxWidth, no two placements
overlap in horizontal or vertical layout (pairwise disjoint rectangles), and
in grid layout the placements tile a regular column/row grid at pitch
`maxImgDim*scale + spacing` with every image contained in its cell. -/
theorem mergeImages_placements_disjoint (files : List Img) (sp mw : ℚ)
    (bg : Option String) (h2 : 2 ≤ files.length) (hsp : 0 ≤ sp) (hmw : 0 ≤ mw) :
    (∀ c ps, mergeImages files ⟨some .horizontal, some sp, bg, some mw⟩ = .success c ps →
      ps.Pairwise rectDisjoint) ∧
    (∀ c ps, mergeImages files ⟨some .vertical, some sp, bg, some mw⟩ = .success c ps →
      ps.Pairwise rectDisjoint) ∧
    (∀ c ps, mergeImages files ⟨some .grid, some sp, bg, some mw⟩ = .success c ps →
      ps.length = files.length ∧
      ∀ i, i < files.length →
        (ps.getD i default).x = ((i % ceilSqrt files.length : ℕ) : ℚ) *
          ((maxNat (files.map Img.width) : ℚ) *
            ((c.width : ℚ) / ((maxNat (files.map Img.width) : ℚ) *
              (ceilSqrt files.length : ℚ) +
              numOr (some sp) 10 * ((ceilSqrt files.length : ℚ) - 1))) +
            numOr (some sp) 10) ∧
        (ps.getD i default).y = ((i / ceilSqrt files.length : ℕ) : ℚ) *
          ((maxNat (files.map Img.height) : ℚ) *
            ((c.width : ℚ) / ((maxNat (files.map Img.width) : ℚ) *
              (ceilSqrt files.length : ℚ) +
              numOr (some sp) 10 * ((ceilSqrt files.length : ℚ) - 1))) +
            numOr (some sp) 10) ∧
        (ps.getD i default).scaledWidth ≤ (maxNat (files.map Img.width) : ℚ) *
          ((c.width : ℚ) / ((maxNat (files.map Img.width) : ℚ) *
            (ceilSqrt files.length : ℚ) +
            numOr (some sp) 10 * ((ceilSqrt files.length : ℚ) - 1))) ∧
        (ps.getD i default).scaledHeight ≤ (maxNat (files.map Img.height) : ℚ) *
          ((c.width : ℚ) / ((maxNat (files.map Img.width) : ℚ) *
            (ceilSqrt files.length : ℚ) +
            numOr (some sp) 10 * ((ceilSqrt files.length : ℚ) - 1)))) := by
  have h0 : files.length ≠ 0 := by omega
  have h1 : files.length ≠ 1 := by omega
  have hs : 0 ≤ numOr (some sp) 10 := by
    simp only [numOr]
    split
    · norm_num
    · exact hsp
  have hm : 0 ≤ numOr (some mw) 1200 := by
    simp only [numOr]
    split
    · norm_num
    · exact hmw
  have hcols1q : (1 : ℚ) ≤ (ceilSqrt files.length : ℚ) := by
    exact_mod_cast one_le_ceilSqrt (show 1 ≤ files.length by omega)
  refine ⟨?_, ?_, ?_⟩
  · intro c ps heq
    simp only [mergeImages, if_neg h0, if_neg h1, Option.getD_some,
      MergeResult.success.injEq] at heq
    obtain ⟨hc, hp⟩ := heq
    subst hc
    subst hp
    simp only [drawPlacements]
    have hraw : 0 ≤ canvasHeightRaw .horizontal (numOr (some sp) 10)
        (numOr (some mw) 1200) files := by
      simp only [canvasHeightRaw]
      exact mul_nonneg (Nat.cast_nonneg _)
        (le_min zero_le_one (div_nonneg hm (Nat.cast_nonneg _)))
    have hsc : 0 ≤ (((canvasHeightRaw .horizontal (numOr (some sp) 10)
        (numOr (some mw) 1200) files).floor : ℤ) : ℚ) /
        (maxNat (files.map Img.height) : ℚ) := by
      apply div_nonneg _ (Nat.cast_nonneg _)
      have : (0 : ℤ) ≤ (canvasHeightRaw .horizontal (numOr (some sp) 10)
          (numOr (some mw) 1200) files).floor := by
        rw [ratFloor_eq_intFloor]
        exact Int.floor_nonneg.mpr hraw
      exact_mod_cast this
    exact List.Pairwise.imp (fun h => Or.inl h)
      (horizLoop_pairwise_sep _ _ _ hs hsc files 0)
  · intro c ps heq
    simp only [mergeImages, if_neg h0, if_neg h1, Option.getD_some,
      MergeResult.success.injEq] at heq
    obtain ⟨hc, hp⟩ := heq
    subst hc
    subst hp
    simp only [drawPlacements]
    have hraw : 0 ≤ canvasWidthRaw .vertical (numOr (some sp) 10)
        (numOr (some mw) 1200) files := by
      simp only [canvasWidthRaw]
      exact mul_nonneg (Nat.cast_nonneg _)
        (le_min zero_le_one (div_nonneg hm (Nat.cast_nonneg _)))
    have hsc : 0 ≤ (((canvasWidthRaw .vertical (numOr (some sp) 10)
        (numOr (some mw) 1200) files).floor : ℤ) : ℚ) /
        (maxNat (files.map Img.width) : ℚ) := by
      apply div_nonneg _ (Nat.cast_nonneg _)
      have : (0 : ℤ) ≤ (canvasWidthRaw .vertical (numOr (some sp) 10)
          (numOr (some mw) 1200) files).floor := by
        rw [ratFloor_eq_intFloor]
        exact Int.floor_nonneg.mpr hraw
      exact_mod_cast this
    exact List.Pairwise.imp (fun h => Or.inr (Or.inr (Or.inl h)))
      (vertLoop_pairwise_sep _ _ _ hs hsc files 0)
  · intro c ps heq
    simp only [mergeImages, if_neg h0, if_neg h1, Option.getD_some,
      MergeResult.success.injEq] at heq
    obtain ⟨hc, hp⟩ := heq
    subst hc
    subst hp
    refine ⟨by simp only [drawPlacements]; exact gridLoop_length _ _ _ _ _ _ _, ?_⟩
    intro i hi
    simp only [drawPlacements]
    have hg := gridLoop_getD (ceilSqrt files.length)
      (maxNat (files.map Img.width) : ℚ) (maxNat (files.map Img.height) : ℚ)
      (numOr (some sp) 10)
      ((((canvasWidthRaw .grid (numOr (some sp) 10) (numOr (some mw) 1200) files).floor :
          ℤ) : ℚ) /
        ((maxNat (files.map Img.width) : ℚ) * (ceilSqrt files.length : ℚ) +
          numOr (some sp) 10 * ((ceilSqrt files.length : ℚ) - 1)))
      files 0 i hi
    have hdenom : 0 ≤ (maxNat (files.map Img.width) : ℚ) * (ceilSqrt files.length : ℚ) +
        numOr (some sp) 10 * ((ceilSqrt files.length : ℚ) - 1) :=
      add_nonneg (mul_nonneg (Nat.cast_nonneg _) (Nat.cast_nonneg _))
        (mul_nonneg hs (by linarith))
    have hraw : 0 ≤ canvasWidthRaw .grid (numOr (some sp) 10)
        (numOr (some mw) 1200) files := by
      simp only [canvasWidthRaw]
      exact mul_nonneg hdenom
        (le_min zero_le_one
          (div_nonneg hm (mul_nonneg (Nat.cast_nonneg _) (Nat.cast_nonneg _))))
    have hgs : 0 ≤ (((canvasWidthRaw .grid (numOr (some sp) 10)
        (numOr (some mw) 1200) files).floor : ℤ) : ℚ) /
        ((maxNat (files.map Img.width) : ℚ) * (ceilSqrt files.length : ℚ) +
          numOr (some sp) 10 * ((ceilSqrt files.length : ℚ) - 1)) := by
      apply div_nonneg _ hdenom
      have : (0 : ℤ) ≤ (canvasWidthRaw .grid (numOr (some sp) 10)
          (numOr (some mw) 1200) files).floor := by
        rw [ratFloor_eq_intFloor]
        exact Int.floor_nonneg.mpr hraw
      exact_mod_cast this
    have hmem : files.getD i default ∈ files := by
      rw [List.getD_eq_getElem _ _ hi]
      exact List.getElem_mem _
    have hwle : ((files.getD i default).width : ℚ) ≤ (maxNat (files.map Img.width) : ℚ) := by
      exact_mod_cast le_maxNat (List.mem_map_of_mem Img.width hmem)
    have hhle : ((files.getD i default).height : ℚ) ≤
        (maxNat (files.map Img.height) : ℚ) := by
      exact_mod_cast le_maxNat (List.mem_map_of_mem Img.height hmem)
    refine ⟨?_, ?_, ?_, ?_⟩
    · have := congrArg Placement.x hg
      simpa using this
    · have := congrArg Placement.y hg
      simpa using this
    · have hsw := congrArg Placement.scaledWidth hg
      simp only at hsw
      rw [hsw]
      exact mul_le_mul_of_nonneg_right hwle hgs
    · have hsh := congrArg Placement.scaledHeight hg
      simp only at hsh
      rw [hsh]
      exact mul_le_mul_of_nonneg_right hhle hgs

/-- Witness for C9 at two concrete images. -/
theorem mergeImages_placements_disjoint_witness :
    (∀ c ps, mergeImages [(⟨100, 200⟩ : Img), ⟨300, 100⟩]
        ⟨some .horizontal, some 10, none, some 1200⟩ = .success c ps →
      ps.Pairwise rectDisjoint) ∧
    (∀ c ps, mergeImages [(⟨100, 200⟩ : Img), ⟨300, 100⟩]
        ⟨some .vertical, some 10, none, some 1200⟩ = .success c ps →
      ps.Pairwise rectDisjoint) ∧
    (∀ c ps, mergeImages [(⟨100, 200⟩ : Img), ⟨300, 100⟩]
        ⟨some .grid, some 10, none, some 1200⟩ = .success c ps →
      ps.length = [(⟨100, 200⟩ : Img), ⟨300, 100⟩].length ∧
      ∀ i, i < [(⟨100, 200⟩ : Img), ⟨300, 100⟩].length →
        (ps.getD i default).x = ((i % ceilSqrt [(⟨100, 200⟩ : Img), ⟨300, 100⟩].length : ℕ) : ℚ) *
          ((maxNat ([(⟨100, 200⟩ : Img), ⟨300, 100⟩].map Img.width) : ℚ) *
            ((c.width : ℚ) / ((maxNat ([(⟨100, 200⟩ : Img), ⟨300, 100⟩].map Img.width) : ℚ) *
              (ceilSqrt [(⟨100, 200⟩ : Img), ⟨300, 100⟩].length : ℚ) +
              numOr (some 10) 10 * ((ceilSqrt [(⟨100, 200⟩ : Img), ⟨300, 100⟩].length : ℚ) - 1))) +
            numOr (some 10) 10) ∧
        (ps.getD i default).y = ((i / ceilSqrt [(⟨100, 200⟩ : Img), ⟨300, 100⟩].length : ℕ) : ℚ) *
          ((maxNat ([(⟨100, 200⟩ : Img), ⟨300, 100⟩].map Img.height) : ℚ) *
            ((c.width : ℚ) / ((maxNat ([(⟨100, 200⟩ : Img), ⟨300, 100⟩].map Img.width) : ℚ) *
              (ceilSqrt [(⟨100, 200⟩ : Img), ⟨300, 100⟩].length : ℚ) +
              numOr (some 10) 10 * ((ceilSqrt [(⟨100, 200⟩ : Img), ⟨300, 100⟩].length : ℚ) - 1))) +
            numOr (some 10) 10) ∧
        (ps.getD i default).scaledWidth ≤
          (maxNat ([(⟨100, 200⟩ : Img), ⟨300, 100⟩].map Img.width) : ℚ) *
          ((c.width : ℚ) / ((maxNat ([(⟨100, 200⟩ : Img), ⟨300, 100⟩].map Img.width) : ℚ) *
            (ceilSqrt [(⟨100, 200⟩ : Img), ⟨300, 100⟩].length : ℚ) +
            numOr (some 10) 10 * ((ceilSqrt [(⟨100, 200⟩ : Img), ⟨300, 100⟩].length : ℚ) - 1))) ∧
        (ps.getD i default).scaledHeight ≤
          (maxNat ([(⟨100, 200⟩ : Img), ⟨300, 100⟩].map Img.height) : ℚ) *
          ((c.width : ℚ) / ((maxNat ([(⟨100, 200⟩ : Img), ⟨300, 100⟩].map Img.width) : ℚ) *
            (ceilSqrt [(⟨100, 200⟩ : Img), ⟨300, 100⟩].length : ℚ) +
            numOr (some 10) 10 * ((ceilSqrt [(⟨100, 200⟩ : Img), ⟨300, 100⟩].length : ℚ) - 1)))) :=
  mergeImages_placements_disjoint [⟨100, 200⟩, ⟨300, 100⟩] 10 1200 none
    (by simp) (by norm_num) (by norm_num)

end DocuCraft
